import Mathlib

/-!
Shallow embedding of the carrefour-deals-bot scraper pipeline
(src/scraper.py and src/simple_scraper.py) and proofs about it.

The extraction logic of the repository lives in JavaScript snippets run
through `page.evaluate`; prices are modelled as exact rationals, JS
`Math.round` as `round` (floor of x + 1/2), and JS float division by zero
through the `JSNum` type (`posInf`/`negInf`/`nan`).
-/

set_option maxRecDepth 100000

namespace Tamimi

/-- Value of a run of decimal digit characters, as JS `parseInt` on a `\d+` match. -/
def digitsToNat (ds : List Char) : Nat :=
  ds.foldl (fun a c => 10 * a + (c.toNat - 48)) 0

/-- Leftmost match of the regex `(\d+)%`: the first `%` immediately preceded by a digit
yields the maximal digit run before it.  `run` carries the digit run read so far
(`none` when the previous character was not a digit). -/
def findPercentAux : List Char → Option Nat → Option Nat
  | [], _ => none
  | c :: rest, run =>
    if c.isDigit then findPercentAux rest (some ((run.getD 0) * 10 + (c.toNat - 48)))
    else if c = '%' then
      match run with
      | some v => some v
      | none => findPercentAux rest none
    else findPercentAux rest none

/-- `text.match(/(\d+)%/)`, returning the captured number of the leftmost match. -/
def findPercent (s : String) : Option Nat :=
  findPercentAux s.data none

/-- Try to match `(\d+)%\s*OFF` (case-insensitive) at the head of the character list. -/
def offAt (cs : List Char) : Option Nat :=
  let ds := cs.takeWhile Char.isDigit
  if ds.isEmpty then none
  else
    match cs.drop ds.length with
    | '%' :: rest =>
      match rest.dropWhile Char.isWhitespace with
      | o :: f1 :: f2 :: _ =>
        if o.toLower == 'o' && f1.toLower == 'f' && f2.toLower == 'f' then
          some (digitsToNat ds)
        else none
      | _ => none
    | _ => none

/-- Leftmost match of `allText.match(/(\d+)%\s*OFF/i)` (scraper.py, Method 3). -/
def findPercentOffAux : List Char → Option Nat
  | [] => none
  | c :: rest =>
    match offAt (c :: rest) with
    | some v => some v
    | none => findPercentOffAux rest

def findPercentOff (s : String) : Option Nat :=
  findPercentOffAux s.data

/-- Value of the leftmost match of `(\d+\.?\d*)` starting at the head of `cs`
(the head is a digit), as JS `parseFloat` reads it. -/
def parseNumFrom (cs : List Char) : ℚ :=
  let ds := cs.takeWhile Char.isDigit
  match cs.drop ds.length with
  | '.' :: rest2 =>
    let fs := rest2.takeWhile Char.isDigit
    (digitsToNat ds : ℚ) + (digitsToNat fs : ℚ) / (10 : ℚ) ^ fs.length
  | _ => (digitsToNat ds : ℚ)

def parseNumAux : List Char → Option ℚ
  | [] => none
  | c :: rest =>
    if c.isDigit then some (parseNumFrom (c :: rest)) else parseNumAux rest

/-- `text.match(/(\d+\.?\d*)/)` followed by `parseFloat` on the captured group:
the leftmost number appearing in the text. -/
def parsePrice (s : String) : Option ℚ :=
  parseNumAux s.data

/-- Result of a JS floating-point computation: a finite number or one of the
non-finite values that division by zero produces. -/
inductive JSNum
  | num (q : ℚ)
  | posInf
  | negInf
  | nan
deriving DecidableEq

/-- JS division on finite operands: finite quotient when the divisor is nonzero,
`Infinity` / `-Infinity` / `NaN` when dividing by zero. -/
def jsDiv (a b : ℚ) : JSNum :=
  if b ≠ 0 then JSNum.num (a / b)
  else if 0 < a then JSNum.posInf
  else if a < 0 then JSNum.negInf
  else JSNum.nan

/-- scraper.py, fetch_page Method 5:
`Math.round(((originalPrice - currentPrice) / originalPrice) * 100)`. -/
def compute_discount (original current : ℚ) : ℤ :=
  round ((original - current) / original * 100)

/-- simple_scraper.py line 120: the fallback `price * 100 / (100 - discount)`
used for `original_price` when no struck-through price was found. -/
def computeOriginalJS (price : ℚ) (discount : ℤ) : JSNum :=
  jsDiv (price * 100) (100 - (discount : ℚ))

/-- Modelled from the spec: `compute_original(current, discount) → float =
current / (1 - discount/100)`, guarded against `discount == 100`
(undefined — returns absent).  Used to compare the spec's description
with the code's actual behaviour. -/
def computeOriginalSpec (current : ℚ) (discount : ℤ) : Option ℚ :=
  if discount = 100 then none
  else some (current / (1 - (discount : ℚ) / 100))

/-- One record of the `deals` array built by the page script of
simple_scraper.py (lines 117-123). -/
structure Deal where
  name : String
  current_price : ℚ
  original_price : JSNum
  discount : ℤ
  url : String
deriving DecidableEq

/-- simple_scraper.py line 18: `DISCOUNT_THRESHOLD = 50`. -/
def DISCOUNT_THRESHOLD : ℤ := 50

variable {α : Type _}

/-- Stable insertion of `x` into a list already sorted descending by `key`:
`x` goes before the first element whose key is ≤ its own, hence before every
element with an equal key that originally came after it. -/
def insDesc (key : α → ℤ) (x : α) : List α → List α
  | [] => [x]
  | y :: ys => if key y ≤ key x then x :: y :: ys else y :: insDesc key x ys

/-- Python's stable `list.sort(key=..., reverse=True)`: descending by `key`,
equal keys kept in their original relative order. -/
def pySortDesc (key : α → ℤ) : List α → List α
  | [] => []
  | x :: xs => insDesc key x (pySortDesc key xs)

/-- simple_scraper.py line 134:
`hot_deals = [p for p in products if p['discount'] >= DISCOUNT_THRESHOLD]`. -/
def hotDealsOf (products : List Deal) : List Deal :=
  products.filter (fun p => decide (DISCOUNT_THRESHOLD ≤ p.discount))

/-- simple_scraper.py lines 134-137: threshold filter followed by
`hot_deals.sort(key=lambda x: x['discount'], reverse=True)`.
This is the `matched_products` sequence of a run. -/
def matchedDeals (products : List Deal) : List Deal :=
  pySortDesc (fun d => d.discount) (hotDealsOf products)

/-- Concrete input for Scenario 3: four extracted deals whose discounts are
30, 50, 70 and 90, in page order. -/
def scenarioDeals : List Deal :=
  [ { name := "P30", current_price := 7, original_price := JSNum.num 10, discount := 30, url := "" },
    { name := "P50", current_price := 5, original_price := JSNum.num 10, discount := 50, url := "" },
    { name := "P70", current_price := 3, original_price := JSNum.num 10, discount := 70, url := "" },
    { name := "P90", current_price := 1, original_price := JSNum.num 10, discount := 90, url := "" } ]

/-- `s in t` for Python strings: `needle` occurs contiguously inside `hay`. -/
def isSubListOf (needle : List Char) : List Char → Bool
  | [] => needle.isEmpty
  | c :: rest => needle.isPrefixOf (c :: rest) || isSubListOf needle rest

def containsSub (needle hay : String) : Bool :=
  isSubListOf needle.data hay.data

/-- Python `str.lower()` (ASCII letters; Arabic glyphs have no case). -/
def lowerStr (s : String) : String :=
  String.mk (s.data.map Char.toLower)

/-- scraper.py line 199. -/
def cheese_keywords : List String :=
  ["cheese", "جبن", "cream cheese", "mozzarella", "cheddar", "parmesan"]

/-- scraper.py lines 204-210. -/
def food_keywords : List String :=
  ["flour", "طحين", "sugar", "سكر", "rice", "أرز", "pasta", "معكرونة",
   "bread", "خبز", "oil", "زيت", "water", "ماء", "juice", "عصير",
   "coffee", "قهوة", "tea", "شاي", "chocolate", "شوكولاتة", "cookies", "بسكويت",
   "honey", "عسل", "dates", "تمر", "yogurt", "زبادي", "labneh", "لبنة",
   "cream", "قشطة", "butter", "زبدة", "milk", "حليب", "eggs", "بيض"]

/-- scraper.py lines 215-219. -/
def meat_keywords : List String :=
  ["meat", "لحم", "chicken", "دجاج", "fish", "سمك", "beef", "لحم بقري",
   "lamb", "خروف", "veal", "عجل", "turkey", "ديك رومي", "sausage", "سجق",
   "burger", "برجر", "steak", "ستيك", "ground", "مفروم", "fillet", "فيليه"]

/-- scraper.py TamimiScraper.categorize_product (lines 194-224): lower-case the
name, then try the cheese, food and meat keyword lists in that priority order;
the first list containing a substring match decides the category, else OTHERS. -/
def categorize_product (name : String) : String :=
  let name_lower := lowerStr name
  if cheese_keywords.any (fun kw => containsSub kw name_lower) then "CHEESE"
  else if food_keywords.any (fun kw => containsSub kw name_lower) then "FOOD"
  else if meat_keywords.any (fun kw => containsSub kw name_lower) then "MEAT"
  else "OTHERS"

/-- One element of the `products_data` array returned by the page script of
scraper.py fetch_page (lines 396-402). -/
structure RawItem where
  name : String
  current_price : ℚ
  original_price : Option ℚ
  discount_percent : ℤ
  url : String
deriving DecidableEq

/-- The `Product` dataclass of scraper.py (lines 156-163). -/
structure Product where
  name : String
  current_price : ℚ
  original_price : Option ℚ
  discount_percent : ℤ
  url : String
  category : String
deriving DecidableEq

/-- Python slicing `name[:100]`: the first 100 characters (code points). -/
def truncate100 (s : String) : String :=
  String.mk (s.data.take 100)

/-- One iteration of scraper.py process_products (lines 449-461): build the
`Product` with the name truncated to 100 characters, then set its category. -/
def mkProduct (item : RawItem) : Product :=
  { name := truncate100 item.name
    current_price := item.current_price
    original_price := item.original_price
    discount_percent := item.discount_percent
    url := item.url
    category := categorize_product (truncate100 item.name) }

/-- scraper.py TamimiScraper.process_products (lines 445-467): every extracted
record is converted to a `Product`, in order; nothing is dropped or merged. -/
def process_products (items : List RawItem) : List Product :=
  items.map mkProduct

/-- Modelled from the spec: the uniqueness key of a product — `url` if present
and non-empty, else `name`.  The source computes no such key (it has no
deduplication step); the definition is needed to state the dedup claim. -/
def productKey (p : Product) : String :=
  if p.url ≠ "" then p.url else p.name

/-- Two extractor candidates sharing the same URL (hence the same uniqueness
key) with slightly different fields, as overlapping parsing strategies produce. -/
def dupRawA : RawItem :=
  { name := "First copy", current_price := 10, original_price := some 20,
    discount_percent := 50, url := "https://shop.tamimimarkets.com/product/1" }

def dupRawB : RawItem :=
  { name := "Second copy", current_price := 11, original_price := some 20,
    discount_percent := 49, url := "https://shop.tamimimarkets.com/product/1" }

/-- scraper.py line 25: `MIN_DISCOUNT = 50`. -/
def MIN_DISCOUNT : ℤ := 50

/-- scraper.py line 26: `MAX_DISCOUNT = 99`. -/
def MAX_DISCOUNT : ℤ := 99

/-- scraper.py line 586:
`hot_deals = [p for p in products if MIN_DISCOUNT <= p.discount_percent <= MAX_DISCOUNT]`. -/
def hotDealsProducts (products : List Product) : List Product :=
  products.filter
    (fun p => decide (MIN_DISCOUNT ≤ p.discount_percent ∧ p.discount_percent ≤ MAX_DISCOUNT))

/-- scraper.py lines 598-608: the bucket of one category, filled by appending
each hot deal whose `categorize_product` value is `cat`, in iteration order. -/
def categorizedBy (hot : List Product) (cat : String) : List Product :=
  hot.filter (fun p => categorize_product p.name == cat)

/-- scraper.py line 629: `category_order = ["CHEESE", "FOOD", "MEAT", "OTHERS"]`. -/
def category_order : List String :=
  ["CHEESE", "FOOD", "MEAT", "OTHERS"]

/-- Helper for `chunksOf`: structural recursion on a fuel bounding the list
length, so that the definition evaluates by iota reduction. -/
def chunksOfAux (n : Nat) : Nat → List α → List (List α)
  | _, [] => []
  | 0, _ :: _ => []
  | fuel + 1, x :: xs => (x :: xs.take (n - 1)) :: chunksOfAux n fuel (xs.drop (n - 1))

/-- Consecutive slices of size `n` (scraper.py line 665:
`for i in range(0, len(...), chunk_size): chunk = [i:i+chunk_size]`). -/
def chunksOf (n : Nat) (l : List α) : List (List α) :=
  chunksOfAux n l.length l

/-- The discount key used by every `.sort(key=lambda x: x.discount_percent,
reverse=True)` call of scraper.py (lines 503, 541, 612). -/
def discountKey (p : Product) : ℤ :=
  p.discount_percent

/-- scraper.py lines 656-690: the running `product_counter`: it starts at 1
and, for every chunk of every sorted category bucket taken in priority order,
advances by the chunk's length after that chunk's detail message is sent. -/
def finalCounter (hot : List Product) : ℕ :=
  category_order.foldl
    (fun counter cat =>
      (chunksOf 8 (pySortDesc discountKey (categorizedBy hot cat))).foldl
        (fun c chunk => c + chunk.length) counter)
    1

/-- A product whose name matches no category keyword, used as concrete input. -/
def witnessProduct : Product :=
  { name := "Zzz", current_price := 25, original_price := none,
    discount_percent := 60, url := "", category := "Others" }

/-- The texts the fetch_page extraction script (scraper.py lines 299-411) reads
from one `[data-testid="product"]` container: the discount badge element, the
percent/discount/offer-classed elements, the selling-price and struck-through
price elements, the brand/name/title elements, the container's full `innerText`
and the enclosing anchor's `href`.  `none` models a missing element. -/
structure Container where
  badgeText : Option String
  percentTexts : List String
  sellingText : Option String
  outdatedText : Option String
  brandText : Option String
  nameText : Option String
  titleText : Option String
  allText : String
  linkHref : Option String

/-- Method 2 (lines 321-331): walk the percent/discount/offer-classed elements
and take the first whose text matches `(\d+)%`, 0 when none does. -/
def firstPercentIn : List String → Nat
  | [] => 0
  | t :: rest =>
    match findPercent t with
    | some v => v
    | none => firstPercentIn rest

/-- Methods 1-4 of the discount cascade (lines 308-343): badge element, then
percent-classed elements, then `(\d+)%\s*OFF` in the full text, then any
`(\d+)%` in the full text.  Each later method runs only while the discount is
still 0, which is also the JS sentinel for "not found". -/
def textDiscount (c : Container) : Nat :=
  let d1 :=
    match c.badgeText with
    | some t => (findPercent t).getD 0
    | none => 0
  let d2 := if d1 = 0 then firstPercentIn c.percentTexts else d1
  let d3 := if d2 = 0 then (findPercentOff c.allText).getD 0 else d2
  if d3 = 0 then (findPercent c.allText).getD 0 else d3

/-- Lines 346-352: `currentPrice` is 0 unless the selling-price element exists
and its text contains a number. -/
def currentPriceOf (c : Container) : ℚ :=
  match c.sellingText with
  | some t => (parsePrice t).getD 0
  | none => 0

/-- Lines 355-361: `originalPrice` is null unless the struck-through price
element exists and its text contains a number. -/
def originalPriceOf (c : Container) : Option ℚ :=
  c.outdatedText.bind parsePrice

/-- Lines 308-366: the final `discount_percent` of a candidate: the text
cascade's value, or — when that is 0 and both prices are truthy with
original > current (Method 5) — the price-derived rounded percentage. -/
def discountOf (c : Container) : ℤ :=
  let td := textDiscount c
  match originalPriceOf c with
  | some o =>
    if td = 0 ∧ o ≠ 0 ∧ currentPriceOf c ≠ 0 ∧ currentPriceOf c < o then
      compute_discount o (currentPriceOf c)
    else (td : ℤ)
  | none => (td : ℤ)

/-- Characters with leading and trailing whitespace removed. -/
def trimChars (cs : List Char) : List Char :=
  ((cs.dropWhile Char.isWhitespace).reverse.dropWhile Char.isWhitespace).reverse

/-- JS `String.prototype.trim()`. -/
def pyTrim (s : String) : String :=
  String.mk (trimChars s.data)

/-- JS `replace(/\s+/g, ' ')`: collapse every whitespace run to one space. -/
def collapseWSAux : List Char → Bool → List Char
  | [], _ => []
  | c :: rest, prevWS =>
    if c.isWhitespace then
      if prevWS then collapseWSAux rest true
      else ' ' :: collapseWSAux rest true
    else c :: collapseWSAux rest false

/-- Line 387: `name.replace(/\s+/g, ' ').trim()`. -/
def collapseWS (s : String) : String :=
  pyTrim (String.mk (collapseWSAux s.data false))

/-- JS `allText.split('\n')`: split at every newline, keeping empty pieces. -/
def splitLinesAux : List Char → List Char → List (List Char)
  | [], acc => [acc.reverse]
  | c :: rest, acc =>
    if c = '\n' then acc.reverse :: splitLinesAux rest []
    else splitLinesAux rest (c :: acc)

def splitLines (s : String) : List String :=
  (splitLinesAux s.data []).map String.mk

/-- Lines 369-378: brand + name concatenation when both elements exist, else
the title element's text, else the empty string. -/
def rawNameOf (c : Container) : String :=
  match c.brandText, c.nameText with
  | some b, some nm => pyTrim (b ++ " " ++ nm)
  | _, _ =>
    match c.titleText with
    | some t => pyTrim t
    | none => ""

/-- Lines 369-387: the candidate's name, falling back to the first line of the
container text longer than 5 trimmed characters when the elements gave nothing
usable (empty or shorter than 3), then whitespace-normalized. -/
def nameOf (c : Container) : String :=
  let base := rawNameOf c
  let base2 :=
    if base = "" ∨ base.length < 3 then
      match (splitLines c.allText).filter (fun l => 5 < (pyTrim l).length) with
      | [] => base
      | l :: _ => pyTrim l
    else base
  collapseWS base2

/-- Lines 390-392: the enclosing anchor's href, empty when there is none. -/
def urlOf (c : Container) : String :=
  c.linkHref.getD ""

/-- One iteration of the extraction loop (lines 306-407): the record is pushed
only when the name is non-empty and the current price positive. -/
def extractProduct (c : Container) : Option RawItem :=
  if nameOf c ≠ "" ∧ 0 < currentPriceOf c then
    some
      { name := nameOf c
        current_price := currentPriceOf c
        original_price := originalPriceOf c
        discount_percent := discountOf c
        url := urlOf c }
  else none

/-- The `products_data` array: the extraction loop over all containers. -/
def extractProducts (cs : List Container) : List RawItem :=
  cs.filterMap extractProduct

/-- A run of the scraper.py pipeline up to `self.products` (the `all_products`
of a RunResult): extraction followed by process_products. -/
def runProducts (cs : List Container) : List Product :=
  process_products (extractProducts cs)

/-- A container whose only percentage text is "150%", with a valid name and
price: Method 4 parses 150 as the discount and nothing clamps it. -/
def overContainer : Container :=
  { badgeText := none, percentTexts := [], sellingText := some "SAR 25",
    outdatedText := none, brandText := none, nameText := none,
    titleText := some "Mega Bundle", allText := "150% more value",
    linkHref := none }

/-- A container carrying the Scenario-1 data: badge "50% OFF", selling price
SAR 25.00, struck price SAR 50.00, name from the title element. -/
def badgeContainer : Container :=
  { badgeText := some "50% OFF", percentTexts := [],
    sellingText := some "SAR 25", outdatedText := some "SAR 50",
    brandText := none, nameText := none, titleText := some "Acme Milk 1L",
    allText := "50% OFF\nAcme Milk 1L\nSAR 25", linkHref := none }

/-- The record the extraction loop builds from `badgeContainer`. -/
def badgeItem : RawItem :=
  { name := "Acme Milk 1L", current_price := 25, original_price := some 50,
    discount_percent := 50, url := "" }

/-- A container whose struck-through price (20.00) is smaller than its selling
price (50.00): nothing validates the price ordering. -/
def invContainer : Container :=
  { badgeText := none, percentTexts := [], sellingText := some "SAR 50",
    outdatedText := some "SAR 20", brandText := none, nameText := none,
    titleText := some "Mispriced Box", allText := "Mispriced Box",
    linkHref := none }

/-- The English-to-Arabic term table of scraper.py (lines 32-146), in source
(insertion) order. -/
def TRANSLATIONS : List (String × String) :=
  [("Flour", "طحين"), ("Sugar", "سكر"), ("Rice", "أرز"), ("Pasta", "معكرونة"),
   ("Bread", "خبز"), ("Milk", "حليب"), ("Cheese", "جبن"), ("Butter", "زبدة"),
   ("Yogurt", "زبادي"), ("Labneh", "لبنة"), ("Cream", "قشطة"), ("Eggs", "بيض"),
   ("Chicken", "دجاج"), ("Meat", "لحم"), ("Fish", "سمك"), ("Vegetables", "خضروات"),
   ("Fruits", "فواكه"), ("Oil", "زيت"), ("Water", "ماء"), ("Juice", "عصير"),
   ("Coffee", "قهوة"), ("Tea", "شاي"), ("Chocolate", "شوكولاتة"), ("Cookies", "بسكويت"),
   ("Chips", "رقائق"), ("Honey", "عسل"), ("Dates", "تمر"),
   ("Almarai", "المراعي"), ("Nadec", "نادك"), ("Aloula", "الأولى"), ("Tamimi", "التميمي"),
   ("Saudia", "سعودية"), ("Goody", "جودي"), ("Sunbulah", "سنبلة"),
   ("Kuwait Bakeries", "مخابز الكويت"), ("Puck", "بك"), ("Philadelphia", "فيلادلفيا"),
   ("Lurpak", "لورباك"), ("President", "بريزيدنت"), ("Nova", "نوفا"),
   ("Driscoll\u0027s", "دريسكول"), ("Alosra", "الأوسرة"), ("Qoot & Root", "قوت وروت"),
   ("Riyadh Food", "رياض فود"), ("Foom", "فوم"), ("Greens", "جرينز"),
   ("Fresh", "طازج"), ("Organic", "عضوي"), ("Full Fat", "كامل الدسم"),
   ("Low Fat", "قليل الدسم"), ("Skimmed", "منزوع الدسم"), ("With", "مع"),
   ("Without", "بدون"), ("And", "و"), ("Pack", "عبوة"), ("Box", "علبة"),
   ("Bottle", "قارورة"), ("Bag", "كيس"), ("Can", "معلبة"), ("Jar", "برطمان"),
   ("Piece", "قطعة"), ("Each", "للحبة"), ("Promo", "عرض"), ("Offer", "عرض خاص"),
   ("Save", "وفر"), ("Discount", "خصم"), ("Price", "السعر"), ("Now", "الآن"),
   ("Was", "كان"),
   ("G", "جرام"), ("Kg", "كيلو"), ("ML", "مل"), ("L", "لتر"), ("Cm", "سم"),
   ("Inch", "بوصة"),
   ("Premium", "ممتاز"), ("Superior", "فاخر"), ("Original", "أصلي"),
   ("Classic", "كلاسيك"), ("Regular", "عادي"), ("Extra", "إضافي"),
   ("Large", "كبير"), ("Small", "صغير"), ("Medium", "وسط"), ("Family", "عائلي"),
   ("Party", "حفلات"),
   ("White", "أبيض"), ("Brown", "بني"), ("Red", "أحمر"), ("Green", "أخضر"),
   ("Yellow", "أصفر"), ("Blue", "أزرق"), ("Black", "أسود"),
   ("Free", "مجاني"), ("Limited", "محدود"), ("New", "جديد"), ("Special", "خاص"),
   ("Best", "أفضل"), ("Value", "قيمة"), ("Quality", "جودة")]

/-- Case-insensitive (ASCII) prefix test, as `re.IGNORECASE` literal matching. -/
def isPrefixCI : List Char → List Char → Bool
  | [], _ => true
  | _ :: _, [] => false
  | a :: as, b :: bs => (a.toLower == b.toLower) && isPrefixCI as bs

/-- Left-to-right, non-overlapping, case-insensitive replacement of a literal
pattern, as `re.compile(re.escape(k), re.IGNORECASE).sub(v, s)` performs it. -/
def replaceCIAux (needle repl : List Char) : List Char → List Char
  | [] => []
  | c :: rest =>
    if isPrefixCI needle (c :: rest) then
      repl ++ replaceCIAux needle repl (rest.drop (needle.length - 1))
    else c :: replaceCIAux needle repl rest
termination_by cs => cs.length
decreasing_by
  · simp only [List.length_cons, List.length_drop]
    omega
  · simp only [List.length_cons]
    omega

def replaceCI (needle repl s : String) : String :=
  if needle.data.isEmpty then s
  else String.mk (replaceCIAux needle.data repl.data s.data)

/-- Product.get_arabic_name (scraper.py lines 168-181): substitute every table
entry case-insensitively in order, then collapse whitespace and strip. -/
def get_arabic_name (name : String) : String :=
  collapseWS (TRANSLATIONS.foldl (fun acc pr => replaceCI pr.1 pr.2 acc) name)

/-- Python `f"{x:.2f}"` on a price: integer part, a dot, and the two-digit
cents of x rounded (half up) to cents; agrees with Python away from ties. -/
def fmt2 (q : ℚ) : String :=
  let cents : ℤ := round (q * 100)
  toString (cents / 100) ++ "." ++
    (if cents % 100 < 10 then "0" ++ toString (cents % 100)
     else toString (cents % 100))

/-- scraper.py lines 630-635: the bilingual category titles. -/
def category_names (cat : String) : String :=
  if cat == "CHEESE" then "🧀 CHEESE / الأجبان"
  else if cat == "FOOD" then "🍞 FOOD / المواد الغذائية"
  else if cat == "MEAT" then "🥩 MEAT / اللحوم"
  else "📦 OTHER PRODUCTS / منتجات أخرى"

/-- `category_names[cat].split(" / ")[0]` (line 668): the text before the
first " / " separator. -/
def enPartAux : List Char → List Char
  | [] => []
  | c :: rest =>
    if [' ', '/', ' '].isPrefixOf (c :: rest) then []
    else c :: enPartAux rest

def enPart (s : String) : String :=
  String.mk (enPartAux s.data)

/-- One numbered product entry of a detail message (scraper.py lines 674-686). -/
def entryText (j : ℕ) (p : Product) : String :=
  "<b>" ++ toString j ++ ".</b> " ++ p.name ++ "\n" ++
  "<b>" ++ toString j ++ ".</b> " ++ get_arabic_name p.name ++ "\n" ++
  "   <b>" ++ toString p.discount_percent ++ "%</b> off | خصم <b>" ++
    toString p.discount_percent ++ "%</b>\n" ++
  (if p.original_price.getD 0 ≠ 0 then
    "   <s>" ++ fmt2 (p.original_price.getD 0) ++ "</s> → " ++
      fmt2 p.current_price ++ " SAR\n"
   else
    "   Now " ++ fmt2 p.current_price ++ " SAR | الآن " ++
      fmt2 p.current_price ++ " ريال\n") ++
  (if p.url ≠ "" then
    "   <a href=\u0027" ++ p.url ++ "\u0027>🔗 View Product | عرض المنتج</a>\n"
   else "") ++
  "\n"

/-- `for j, product in enumerate(chunk, start_num)`: the entries of one chunk,
numbered consecutively from `j`. -/
def entriesFrom (j : ℕ) : List Product → String
  | [] => ""
  | p :: ps => entryText j p ++ entriesFrom (j + 1) ps

/-- The full text of one detail message (scraper.py lines 672-686). -/
def chunkMessage (catName : String) (chunk : List Product) (startNum total : ℕ) : String :=
  "<b>" ++ catName ++ " - Items " ++ toString startNum ++ "-" ++
    toString (startNum + chunk.length - 1) ++ " of " ++ toString total ++ "</b>\n\n" ++
  entriesFrom startNum chunk

/-- scraper.py lines 659-668: each category's sorted bucket in priority order,
cut into chunks of 8, tagged with the English part of the category title. -/
def detailChunks (hot : List Product) : List (String × List Product) :=
  category_order.flatMap (fun cat =>
    (chunksOf 8 (pySortDesc discountKey (categorizedBy hot cat))).map
      (fun ch => (enPart (category_names cat), ch)))

/-- scraper.py lines 657-690: emit one message per chunk, threading the
running product counter through the chunks. -/
def detailMessagesAux (total : ℕ) : ℕ → List (String × List Product) → List String
  | _, [] => []
  | counter, pr :: rest =>
    chunkMessage pr.1 pr.2 counter total ::
      detailMessagesAux total (counter + pr.2.length) rest

/-- The sequence of detail payloads the composer sends for a product list:
filter to the 50-99% hot deals, bucket and sort them, then one message per
chunk of 8 with continuous numbering. -/
def sendAlertDetailMessages (products : List Product) : List String :=
  detailMessagesAux (hotDealsProducts products).length 1
    (detailChunks (hotDealsProducts products))

/-- A hot deal whose product URL is 4200 characters long; its name matches no
translation key and no category keyword. -/
def longUrlProduct : Product :=
  { name := "Zzz", current_price := 25, original_price := none,
    discount_percent := 60, url := String.mk (List.replicate 4200 'a'),
    category := "Others" }

end Tamimi

namespace Tamimi

/-- C6 counterexample: at original = 3, current = 2 the computed discount is 33,
and the recovered original price 2 / (1 - 33/100) = 200/67 differs from 3 by
1/67 ≈ 0.0149 > 0.01, violating the claimed ±0.01 tolerance. -/
theorem C6_counterexample :
    compute_discount 3 2 = 33 ∧
    computeOriginalJS 2 (compute_discount 3 2) = JSNum.num (200 / 67) ∧
    ¬ (|(200 / 67 : ℚ) - 3| ≤ 1 / 100) := by
  have h1 : compute_discount 3 2 = 33 := by
    rw [compute_discount, round_eq, show ((3 : ℚ) - 2) / 3 * 100 + 1 / 2 = 203 / 6 by norm_num,
      Int.floor_eq_iff]
    constructor <;> norm_num
  refine ⟨h1, ?_, ?_⟩
  · rw [h1, computeOriginalJS, jsDiv, if_pos (by norm_num : ((100 : ℚ) - ((33 : ℤ) : ℚ)) ≠ 0)]
    norm_num
  · rw [not_le, abs_sub_comm, show (3 : ℚ) - 200 / 67 = 1 / 67 by norm_num,
      abs_of_nonneg (by norm_num : (0 : ℚ) ≤ 1 / 67)]
    norm_num

/-- C6 (amended): when the true discount ratio 100·(original−current)/original is an
exact integer d < 100 (no rounding error), `compute_discount` returns d and the
round-trip `compute_original(current, d)` recovers the original price exactly. -/
theorem C6_roundtrip_exact (original current : ℚ) (d : ℤ)
    (hc : 0 < current) (hco : current < original)
    (hd : (d : ℚ) = (original - current) / original * 100) (hd100 : d < 100) :
    compute_discount original current = d ∧
    computeOriginalJS current d = JSNum.num original := by
  have ho : 0 < original := hc.trans hco
  constructor
  · rw [compute_discount, ← hd, round_intCast]
  · have hdq : ((100 : ℚ) - d) = current * 100 / original := by
      rw [hd]
      field_simp
      ring
    have hne : ((100 : ℚ) - d) ≠ 0 := by
      rw [hdq]
      positivity
    rw [computeOriginalJS, jsDiv, if_pos hne, hdq]
    congr 1
    have hc0 : current ≠ 0 := ne_of_gt hc
    have ho0 : original ≠ 0 := ne_of_gt ho
    field_simp

/-- Witness for C6_roundtrip_exact at original = 4, current = 2, d = 50. -/
theorem C6_roundtrip_exact_witness :
    compute_discount 4 2 = 50 ∧ computeOriginalJS 2 50 = JSNum.num 4 :=
  C6_roundtrip_exact 4 2 50 (by norm_num) (by norm_num) (by norm_num) (by norm_num)

/-- C7 counterexample: at current = 2, discount = 100 the spec's guarded
`compute_original` returns an absent value, but the code's expression
`price * 100 / (100 - discount)` divides by zero and yields JS `Infinity`
— a present, non-finite value, not an absent one. -/
theorem C7_counterexample :
    computeOriginalSpec 2 100 = none ∧ computeOriginalJS 2 100 = JSNum.posInf := by
  constructor
  · rw [computeOriginalSpec, if_pos rfl]
  · rw [computeOriginalJS, jsDiv, if_neg (by push_cast; norm_num),
      if_pos (by norm_num : (0 : ℚ) < 2 * 100)]

/-- C7 (amended): for discount < 100 the fallback returns the finite value
current / (1 - discount/100); at discount = 100 there is no guard — the JS
division by zero yields +Infinity for any positive current price. -/
theorem C7_no_guard (current : ℚ) (d : ℤ) :
    (d < 100 → computeOriginalJS current d = JSNum.num (current / (1 - (d : ℚ) / 100))) ∧
    (0 < current → computeOriginalJS current 100 = JSNum.posInf) := by
  constructor
  · intro hd
    have hq : ((d : ℚ)) < 100 := by exact_mod_cast hd
    have hne : ((100 : ℚ) - d) ≠ 0 := ne_of_gt (by linarith)
    have hne2 : ((1 : ℚ) - (d : ℚ) / 100) ≠ 0 := ne_of_gt (by linarith)
    rw [computeOriginalJS, jsDiv, if_pos hne]
    congr 1
    rw [div_eq_div_iff hne hne2]
    ring
  · intro hc
    rw [computeOriginalJS, jsDiv, if_neg (by push_cast; norm_num),
      if_pos (by positivity : (0 : ℚ) < current * 100)]

/-- Witness for C7_no_guard at current = 2 with d = 50 and d = 100. -/
theorem C7_no_guard_witness :
    computeOriginalJS 2 50 = JSNum.num (2 / (1 - (50 : ℚ) / 100)) ∧
    computeOriginalJS 2 100 = JSNum.posInf :=
  ⟨(C7_no_guard 2 50).1 (by norm_num), (C7_no_guard 2 100).2 (by norm_num)⟩

variable {α : Type _}

theorem mem_insDesc (key : α → ℤ) (x a : α) (l : List α) :
    a ∈ insDesc key x l ↔ a = x ∨ a ∈ l := by
  induction l with
  | nil => simp [insDesc]
  | cons y ys ih =>
    rw [insDesc]
    split
    · simp
    · simp only [List.mem_cons, ih]
      tauto

theorem insDesc_pairwise (key : α → ℤ) (x : α) (l : List α)
    (h : l.Pairwise (fun a b => key b ≤ key a)) :
    (insDesc key x l).Pairwise (fun a b => key b ≤ key a) := by
  induction l with
  | nil => simp [insDesc]
  | cons y ys ih =>
    rw [insDesc]
    rw [List.pairwise_cons] at h
    split
    · rename_i hxy
      refine List.Pairwise.cons ?_ (List.Pairwise.cons h.1 h.2)
      intro b hb
      rcases List.mem_cons.mp hb with hb | hb
      · exact hb ▸ hxy
      · exact (h.1 b hb).trans hxy
    · rename_i hxy
      refine List.Pairwise.cons ?_ (ih h.2)
      intro b hb
      rcases (mem_insDesc key x b ys).mp hb with hb | hb
      · exact hb ▸ le_of_lt (lt_of_not_le hxy)
      · exact h.1 b hb

theorem pySortDesc_sorted (key : α → ℤ) (l : List α) :
    (pySortDesc key l).Pairwise (fun a b => key b ≤ key a) := by
  induction l with
  | nil => exact List.Pairwise.nil
  | cons x xs ih => exact insDesc_pairwise key x _ ih

theorem filter_insDesc (key : α → ℤ) (k : ℤ) (x : α) (l : List α) :
    (insDesc key x l).filter (fun a => key a == k) =
      if key x = k then x :: l.filter (fun a => key a == k)
      else l.filter (fun a => key a == k) := by
  induction l with
  | nil =>
    rw [insDesc]
    by_cases hx : key x = k <;> simp [List.filter_cons, hx]
  | cons y ys ih =>
    rw [insDesc]
    split
    · rename_i hxy
      by_cases hx : key x = k <;> simp [List.filter_cons, hx]
    · rename_i hxy
      have hyx : key x < key y := lt_of_not_le hxy
      by_cases hx : key x = k
      · have hy : ¬ (key y = k) := by omega
        simp [List.filter_cons, hx, hy, ih]
      · by_cases hy : key y = k <;> simp [List.filter_cons, hx, hy, ih]

theorem filter_pySortDesc (key : α → ℤ) (k : ℤ) (l : List α) :
    (pySortDesc key l).filter (fun a => key a == k) = l.filter (fun a => key a == k) := by
  induction l with
  | nil => rfl
  | cons x xs ih =>
    rw [pySortDesc, filter_insDesc, ih]
    by_cases hx : key x = k <;> simp [List.filter_cons, hx]

/-- C4: `matched_products` (the deals passing the discount filter) is sorted in
descending order of discount, and for every discount value the equal-discount
deals appear in exactly their original (page/filter) order — the sort is stable. -/
theorem C4_matched_sorted_stable (products : List Deal) :
    (matchedDeals products).Pairwise (fun a b => b.discount ≤ a.discount) ∧
    ∀ k : ℤ, (matchedDeals products).filter (fun d => d.discount == k) =
      (hotDealsOf products).filter (fun d => d.discount == k) :=
  ⟨pySortDesc_sorted (fun d : Deal => d.discount) _,
   fun k => filter_pySortDesc (fun d : Deal => d.discount) k _⟩

/-- C8: with the inclusive threshold 50 and input discounts [30, 50, 70, 90],
`matched_products` has discounts exactly [90, 70, 50]: the 50%-discount product
is included (≥ comparison) and the 30% one excluded. -/
theorem C8_threshold_scenario :
    (matchedDeals scenarioDeals).map (fun d => d.discount) = [90, 70, 50] := by
  rfl

/-- The classifier always lands in one of the four fixed categories. -/
theorem categorize_total (name : String) :
    categorize_product name = "CHEESE" ∨ categorize_product name = "FOOD" ∨
    categorize_product name = "MEAT" ∨ categorize_product name = "OTHERS" := by
  unfold categorize_product
  dsimp only
  split_ifs <;> simp

/-- C9: `categorize_product` is a total deterministic function into the four
categories, deciding by case-insensitive substring matching with the fixed
priority order cheese, then food, then meat, default OTHERS; within each
keyword list only the existence of a match (any keyword, either script)
matters, so English and Arabic keywords have equal priority. -/
theorem C9_categorize_characterization (name : String) :
    (categorize_product name = "CHEESE" ∨ categorize_product name = "FOOD" ∨
     categorize_product name = "MEAT" ∨ categorize_product name = "OTHERS") ∧
    (categorize_product name = "CHEESE" ↔
      cheese_keywords.any (fun kw => containsSub kw (lowerStr name)) = true) ∧
    (categorize_product name = "FOOD" ↔
      (¬ cheese_keywords.any (fun kw => containsSub kw (lowerStr name)) = true ∧
       food_keywords.any (fun kw => containsSub kw (lowerStr name)) = true)) ∧
    (categorize_product name = "MEAT" ↔
      (¬ cheese_keywords.any (fun kw => containsSub kw (lowerStr name)) = true ∧
       ¬ food_keywords.any (fun kw => containsSub kw (lowerStr name)) = true ∧
       meat_keywords.any (fun kw => containsSub kw (lowerStr name)) = true)) ∧
    (categorize_product name = "OTHERS" ↔
      (¬ cheese_keywords.any (fun kw => containsSub kw (lowerStr name)) = true ∧
       ¬ food_keywords.any (fun kw => containsSub kw (lowerStr name)) = true ∧
       ¬ meat_keywords.any (fun kw => containsSub kw (lowerStr name)) = true)) := by
  refine ⟨categorize_total name, ?_, ?_, ?_, ?_⟩ <;>
    · unfold categorize_product
      dsimp only
      split_ifs <;> simp_all

theorem foldl_add_length {β : Type _} (L : List (List β)) (c : ℕ) :
    L.foldl (fun c chunk => c + chunk.length) c = c + (L.map List.length).sum := by
  induction L generalizing c with
  | nil => simp
  | cons ch rest ih => simp [List.foldl_cons, ih, Nat.add_assoc]

theorem sum_chunksOfAux (n : Nat) :
    ∀ (fuel : Nat) (l : List α), l.length ≤ fuel →
      ((chunksOfAux n fuel l).map List.length).sum = l.length
  | _, [], _ => by simp [chunksOfAux]
  | 0, x :: xs, h => by simp at h
  | fuel + 1, x :: xs, h => by
    rw [chunksOfAux]
    have ih := sum_chunksOfAux n fuel (xs.drop (n - 1))
      (by simp only [List.length_drop]; simp at h; omega)
    simp only [List.map_cons, List.sum_cons, ih, List.length_cons, List.length_take,
      List.length_drop]
    omega

theorem sum_chunksOf (n : Nat) (l : List α) :
    ((chunksOf n l).map List.length).sum = l.length :=
  sum_chunksOfAux n l.length l (le_refl _)

theorem length_le_of_mem_chunksOfAux (n : Nat) (hn : 0 < n) :
    ∀ (fuel : Nat) (l : List α), ∀ c ∈ chunksOfAux n fuel l, c.length ≤ n
  | _, [], c, hc => by simp [chunksOfAux] at hc
  | 0, _ :: _, c, hc => by simp [chunksOfAux] at hc
  | fuel + 1, x :: xs, c, hc => by
    rw [chunksOfAux] at hc
    rcases List.mem_cons.mp hc with hc | hc
    · subst hc
      simp only [List.length_cons, List.length_take]
      omega
    · exact length_le_of_mem_chunksOfAux n hn fuel (xs.drop (n - 1)) c hc

theorem length_le_of_mem_chunksOf (n : Nat) (hn : 0 < n) (l : List α) :
    ∀ c ∈ chunksOf n l, c.length ≤ n :=
  length_le_of_mem_chunksOfAux n hn l.length l

theorem length_insDesc (key : α → ℤ) (x : α) (l : List α) :
    (insDesc key x l).length = l.length + 1 := by
  induction l with
  | nil => rfl
  | cons y ys ih =>
    rw [insDesc]
    split <;> simp [ih]

theorem length_pySortDesc (key : α → ℤ) (l : List α) :
    (pySortDesc key l).length = l.length := by
  induction l with
  | nil => rfl
  | cons x xs ih =>
    rw [pySortDesc, length_insDesc, ih]
    rfl

/-- Each hot deal lands in exactly one bucket, so the four bucket sizes add up
to the number of hot deals. -/
theorem sum_categorized (hot : List Product) :
    (categorizedBy hot "CHEESE").length + (categorizedBy hot "FOOD").length +
      (categorizedBy hot "MEAT").length + (categorizedBy hot "OTHERS").length = hot.length := by
  induction hot with
  | nil => rfl
  | cons p t ih =>
    rcases categorize_total p.name with h | h | h | h <;>
      simp only [categorizedBy, List.filter_cons, h, List.length_cons] at ih ⊢ <;>
      simp <;> omega

/-- C10: when the hot-deals list is non-empty, the four category buckets
partition it — their sizes sum to the reported total — and the continuous
numbering over all detail payloads ends exactly at that total (the counter,
started at 1, finishes at total + 1). -/
theorem C10_partition_and_numbering (products : List Product)
    (hne : hotDealsProducts products ≠ []) :
    (categorizedBy (hotDealsProducts products) "CHEESE").length +
      (categorizedBy (hotDealsProducts products) "FOOD").length +
      (categorizedBy (hotDealsProducts products) "MEAT").length +
      (categorizedBy (hotDealsProducts products) "OTHERS").length =
      (hotDealsProducts products).length ∧
    finalCounter (hotDealsProducts products) = (hotDealsProducts products).length + 1 := by
  refine ⟨sum_categorized _, ?_⟩
  have hsum := sum_categorized (hotDealsProducts products)
  rw [finalCounter, category_order]
  simp only [List.foldl_cons, List.foldl_nil, foldl_add_length,
    sum_chunksOf, length_pySortDesc]
  omega

/-- Witness for C10_partition_and_numbering on a one-product input. -/
theorem C10_partition_and_numbering_witness :
    (categorizedBy (hotDealsProducts [witnessProduct]) "CHEESE").length +
      (categorizedBy (hotDealsProducts [witnessProduct]) "FOOD").length +
      (categorizedBy (hotDealsProducts [witnessProduct]) "MEAT").length +
      (categorizedBy (hotDealsProducts [witnessProduct]) "OTHERS").length =
      (hotDealsProducts [witnessProduct]).length ∧
    finalCounter (hotDealsProducts [witnessProduct]) =
      (hotDealsProducts [witnessProduct]).length + 1 :=
  C10_partition_and_numbering [witnessProduct] (by decide)

/-- C1 counterexample: two extracted candidates share the same URL — the same
uniqueness key — and process_products keeps both, so `all_products` contains
two products with equal keys: there is no deduplication step. -/
theorem C1_counterexample :
    ¬ ((process_products [dupRawA, dupRawB]).Pairwise
        (fun p q => productKey p ≠ productKey q)) := by
  intro h
  rw [process_products, List.map_cons, List.map_cons, List.map_nil,
    List.pairwise_cons] at h
  exact h.1 (mkProduct dupRawB) (List.mem_singleton.mpr rfl) rfl

/-- C1 (amended): process_products performs no deduplication: it converts every
extracted candidate one-for-one into a `Product`, preserving page order (with
the name truncated to 100 characters), so candidates sharing a uniqueness key
all remain in `all_products`. -/
theorem C1_no_dedup (items : List RawItem) :
    (process_products items).length = items.length ∧
    (process_products items).map productKey =
      items.map (fun r => if r.url ≠ "" then r.url else truncate100 r.name) := by
  refine ⟨by simp [process_products], ?_⟩
  simp only [process_products, List.map_map]
  apply List.map_congr_left
  intro r _
  rfl

theorem parseNumFrom_nonneg (cs : List Char) : 0 ≤ parseNumFrom cs := by
  rw [parseNumFrom]
  split <;> positivity

theorem parseNumAux_nonneg : ∀ cs : List Char, ∀ q : ℚ, parseNumAux cs = some q → 0 ≤ q
  | [], q, h => by simp [parseNumAux] at h
  | c :: rest, q, h => by
    rw [parseNumAux] at h
    split at h
    · rw [Option.some_inj] at h
      exact h ▸ parseNumFrom_nonneg _
    · exact parseNumAux_nonneg rest q h

theorem currentPriceOf_nonneg (c : Container) : 0 ≤ currentPriceOf c := by
  cases hs : c.sellingText with
  | none => simp [currentPriceOf, hs]
  | some t =>
    cases hp : parsePrice t with
    | none => simp [currentPriceOf, hs, hp]
    | some q =>
      have := parseNumAux_nonneg t.data q hp
      simp [currentPriceOf, hs, hp, this]

/-- The price-derived discount (Method 5) is always between 0 and 100 when the
prices satisfy 0 ≤ current < original. -/
theorem compute_discount_bounds (o cur : ℚ) (hcur : 0 ≤ cur) (hlt : cur < o) :
    0 ≤ compute_discount o cur ∧ compute_discount o cur ≤ 100 := by
  have ho : 0 < o := lt_of_le_of_lt hcur hlt
  have hsub : 0 ≤ o - cur := by linarith
  have hv0 : 0 ≤ (o - cur) / o * 100 :=
    mul_nonneg (div_nonneg hsub ho.le) (by norm_num)
  have hv1 : (o - cur) / o * 100 ≤ 100 := by
    rw [div_mul_eq_mul_div, div_le_iff ho]
    nlinarith
  constructor
  · rw [compute_discount, round_eq]
    exact Int.le_floor.mpr (by push_cast; linarith)
  · rw [compute_discount, round_eq]
    by_contra hcon
    push_neg at hcon
    have h101 : ((101 : ℤ) : ℚ) ≤ (o - cur) / o * 100 + 1 / 2 := Int.le_floor.mp hcon
    push_cast at h101
    linarith

/-- C2 counterexample: a container whose text contains "150%" (and no other
discount source) yields, after extraction and process_products, a product in
the run's `all_products` with `discount_percent = 150 > 100`: text-parsed
percentages are never clamped to [0, 100]. -/
theorem C2_counterexample :
    (runProducts [overContainer]).map (fun p => p.discount_percent) = [150] ∧
    ¬ ((150 : ℤ) ≤ 100) := by
  constructor
  · rfl
  · decide

/-- C2 (amended): every extracted candidate has `discount_percent ≥ 0`, and
when the textual cascade found no percentage (so only Method 5 could set it)
the discount is also ≤ 100; a percentage parsed from the container's text is
taken as-is and may exceed 100. -/
theorem C2_discount_bounds (c : Container) (item : RawItem)
    (h : extractProduct c = some item) :
    0 ≤ item.discount_percent ∧
    (textDiscount c = 0 → item.discount_percent ≤ 100) := by
  rw [extractProduct] at h
  split at h
  · rw [Option.some_inj] at h
    subst h
    dsimp only [discountOf]
    constructor
    · cases ho : originalPriceOf c with
      | none => exact Int.ofNat_nonneg _
      | some o =>
        dsimp only
        split
        · rename_i hcond
          exact (compute_discount_bounds o (currentPriceOf c) (currentPriceOf_nonneg c)
            hcond.2.2.2).1
        · exact Int.ofNat_nonneg _
    · intro htd
      cases ho : originalPriceOf c with
      | none => simp [htd]
      | some o =>
        dsimp only
        split
        · rename_i hcond
          exact (compute_discount_bounds o (currentPriceOf c) (currentPriceOf_nonneg c)
            hcond.2.2.2).2
        · simp [htd]
  · exact absurd h (by simp)

/-- Witness for C2_discount_bounds on the Scenario-1 container. -/
theorem C2_discount_bounds_witness :
    0 ≤ badgeItem.discount_percent ∧
    (textDiscount badgeContainer = 0 → badgeItem.discount_percent ≤ 100) :=
  C2_discount_bounds badgeContainer badgeItem (by decide)

/-- C5 counterexample: a container whose struck-through price parses to 20.00
while its selling price parses to 50.00 produces a product whose present
`original_price` is smaller than its `current_price`: the extractor does not
validate the price ordering. -/
theorem C5_counterexample :
    (runProducts [invContainer]).map (fun p => (p.original_price, p.current_price)) =
      [(some 20, 50)] ∧
    ¬ ((50 : ℚ) ≤ 20) := by
  constructor
  · rfl
  · decide

/-- C5 (amended): extracted original prices are carried through unvalidated
(they can be below the current price); only the computed fallback of
simple_scraper.py — used when no struck price was found and 0 < discount < 100
— always returns an original price ≥ the current price. -/
theorem C5_computed_original_ge (price : ℚ) (d : ℤ)
    (hp : 0 < price) (hd0 : 0 < d) (hd100 : d < 100) :
    computeOriginalJS price d = JSNum.num (price * 100 / (100 - (d : ℚ))) ∧
    price ≤ price * 100 / (100 - (d : ℚ)) := by
  have hdq : ((d : ℚ)) < 100 := by exact_mod_cast hd100
  have hdq0 : (0 : ℚ) < (d : ℚ) := by exact_mod_cast hd0
  have hpos : (0 : ℚ) < 100 - (d : ℚ) := by linarith
  constructor
  · rw [computeOriginalJS, jsDiv, if_pos (ne_of_gt hpos)]
  · rw [le_div_iff hpos]
    nlinarith

/-- Witness for C5_computed_original_ge at price = 2, discount = 50. -/
theorem C5_computed_original_ge_witness :
    computeOriginalJS 2 50 = JSNum.num (2 * 100 / (100 - ((50 : ℤ) : ℚ))) ∧
    (2 : ℚ) ≤ 2 * 100 / (100 - ((50 : ℤ) : ℚ)) :=
  C5_computed_original_ge 2 50 (by norm_num) (by norm_num) (by norm_num)

/-- C3 counterexample: a single hot deal whose URL is 4200 characters long
makes the composer emit a detail payload longer than 4096 characters: the
composer chunks only by product count (8), never by character length, so the
claimed payload-length bound fails. -/
theorem C3_counterexample :
    ¬ (∀ m ∈ sendAlertDetailMessages [longUrlProduct], m.length ≤ 4096) := by
  intro h
  have hlist : sendAlertDetailMessages [longUrlProduct] =
      [chunkMessage "📦 OTHER PRODUCTS" [longUrlProduct] 1 1] := rfl
  have hm := h (chunkMessage "📦 OTHER PRODUCTS" [longUrlProduct] 1 1)
    (by rw [hlist]; exact List.mem_singleton.mpr rfl)
  have hurl : (String.mk (List.replicate 4200 'a')).length = 4200 := by
    rw [String.length_mk, List.length_replicate]
  have hune : (String.mk (List.replicate 4200 'a')) ≠ "" := by
    intro hcontra
    have h2 : (String.mk (List.replicate 4200 'a')).length = ("" : String).length := by
      rw [hcontra]
    rw [String.length_mk, List.length_replicate] at h2
    simp at h2
  have hcond0 : ¬ ((longUrlProduct.original_price.getD 0 : ℚ) ≠ 0) := by
    simp [longUrlProduct]
  have hlen : 4200 ≤ (chunkMessage "📦 OTHER PRODUCTS" [longUrlProduct] 1 1).length := by
    rw [chunkMessage]
    simp only [entriesFrom]
    rw [entryText, if_neg hcond0, if_pos (show longUrlProduct.url ≠ "" from hune)]
    simp only [String.length_append]
    have h3 : longUrlProduct.url.length = 4200 := hurl
    omega
  omega

/-- C3 (amended): the composer bounds each detail payload by product count —
every chunk rendered into a payload holds at most 8 products — not by
character length, which is unbounded. -/
theorem C3_chunk_size_bound (products : List Product) (pr : String × List Product)
    (h : pr ∈ detailChunks (hotDealsProducts products)) :
    pr.2.length ≤ 8 := by
  rw [detailChunks] at h
  rcases List.mem_flatMap.mp h with ⟨cat, _, hmem⟩
  rcases List.mem_map.mp hmem with ⟨ch, hch, hpr⟩
  have := length_le_of_mem_chunksOf 8 (by norm_num)
    (pySortDesc discountKey (categorizedBy (hotDealsProducts products) cat)) ch hch
  rw [← hpr]
  exact this

/-- Witness for C3_chunk_size_bound on the one-product input. -/
theorem C3_chunk_size_bound_witness :
    (("📦 OTHER PRODUCTS", [longUrlProduct]) : String × List Product).2.length ≤ 8 :=
  C3_chunk_size_bound [longUrlProduct] ("📦 OTHER PRODUCTS", [longUrlProduct])
    (by rw [show detailChunks (hotDealsProducts [longUrlProduct]) =
          [("📦 OTHER PRODUCTS", [longUrlProduct])] from rfl]
        exact List.mem_singleton.mpr rfl)

end Tamimi
